import Mathlib

/-!
# remuneracoes: the command-line orchestrator `cli/cli.go`

A shallow embedding of `generateIndexMock` and `main`.

* Go `string` is `String` (valid UTF-8), Go `error` is its message, Go `int` is
  `Int` (no arithmetic is performed on month and year).
* Everything outside the file (the directory listing, the creation of
  `index.html`, the space left on the disk, `filepath.Abs`, the collaborator
  packages) is an explicit input: `World` for the file system, `Env` for the
  collaborators.
* The template is rendered by `html/template` of the Go standard library. The
  functions it applies to a `template.URL` inside `href="..."` (`urlFilter`,
  `urlNormalizer` with `processURLOnto`, `attrEscaper` with
  `htmlReplacementTable`) are embedded from that package.
* Function `main` returns the ordered record of the calls it made, the exit
  code and the final file system. `log.Fatal` exits through `os.Exit(1)`, which
  does not run deferred calls.
-/

namespace Cli

/-- Go `error`, identified with the text of `err.Error()`. -/
abbrev Error := String

/-! ## The file system seen by `generateIndexMock` -/

/-- One entry of a directory, as `ioutil.ReadDir` reports it (`os.FileInfo`):
a regular file, or a subdirectory together with its own entries. -/
inductive FileInfo where
  | file (name : String) : FileInfo
  | dir (name : String) (entries : List FileInfo) : FileInfo

/-- Method `file.Name()`: the base name of the entry. -/
def FileInfo.Name : FileInfo → String
  | .file name => name
  | .dir name _ => name

/-- Method `file.IsDir()`. -/
def FileInfo.IsDir : FileInfo → Bool
  | .file _ => false
  | .dir _ _ => true

mutual
/-- Paths, relative to the directory holding the entry, of the regular files the
entry stands for: itself, or every file found at any depth below it. -/
def FileInfo.files : FileInfo → List String
  | .file name => [name]
  | .dir name entries => (filesOf entries).map (fun r => name ++ "/" ++ r)
/-- Relative paths of all regular files of a directory with the given entries,
at any depth. -/
def filesOf : List FileInfo → List String
  | [] => []
  | e :: es => e.files ++ filesOf es
end

/-- The part of the machine `generateIndexMock` touches. -/
structure World where
  /-- Outcome of `ioutil.ReadDir path`: the direct entries, or the read error. -/
  readDir : String → Except Error (List FileInfo)
  /-- Error of `os.Create("index.html")`, if it fails. -/
  createErr : Option Error
  /-- Bytes the disk still accepts (`none`: no limit). -/
  diskFree : Option Nat
  /-- Outcome of `filepath.Abs("./index.html")`. -/
  absIndex : Except Error String
  /-- Content of `index.html` in the working directory, `none` when absent. -/
  indexHtml : Option String

/-! ## `html/template`: escaping of a `template.URL` inside `href="..."` -/

/-- Function `isHex` of `html/template`. -/
def isHex (c : Char) : Bool :=
  ('0' ≤ c && c ≤ '9') || ('a' ≤ c && c ≤ 'f') || ('A' ≤ c && c ≤ 'F')

/-- Lower-case hexadecimal digit of a number below sixteen. -/
def hexDigit (n : Nat) : Char :=
  if n < 10 then Char.ofNat (48 + n) else Char.ofNat (87 + n)

/-- The text `fmt.Fprintf(b, "%%%02x", c)` writes for the byte `c`. -/
def percentByte (b : Nat) : List Char :=
  ['%', hexDigit (b / 16), hexDigit (b % 16)]

/-- The bytes of the UTF-8 encoding of a character. -/
def utf8Bytes (c : Char) : List Nat :=
  let v := c.toNat
  if v < 128 then [v]
  else if v < 2048 then [192 + v / 64, 128 + v % 64]
  else if v < 65536 then [224 + v / 4096, 128 + v / 64 % 64, 128 + v % 64]
  else [240 + v / 262144, 128 + v / 4096 % 64, 128 + v / 64 % 64, 128 + v % 64]

/-- Bytes `processURLOnto` copies unchanged when normalising, whatever follows
them: the reserved characters of its first `case`, the unreserved marks of the
second, and ASCII letters and digits. -/
def urlKept (c : Char) : Bool :=
  c ∈ ['!', '#', '$', '&', '*', '+', ',', '/', ':', ';', '=', '?', '@', '[', ']']
    || c ∈ ['-', '.', '_', '~']
    || ('a' ≤ c && c ≤ 'z') || ('A' ≤ c && c ≤ 'Z') || ('0' ≤ c && c ≤ '9')

/-- The test `i+2 < len(s) && isHex(s[i+1]) && isHex(s[i+2])` on the text that
follows a `%`. -/
def hexPair : List Char → Bool
  | h1 :: h2 :: _ => isHex h1 && isHex h2
  | _ => false

/-- Function `processURLOnto(s, norm = true, b)` of `html/template`: a kept byte, and a
`%` in front of two hexadecimal digits, is copied; every other byte is written
as `%xx`. A character outside ASCII is the sequence of its UTF-8 bytes, none of
which is kept. -/
def processURLOnto : List Char → List Char
  | [] => []
  | c :: cs =>
    if urlKept c then c :: processURLOnto cs
    else if c = '%' && hexPair cs then c :: processURLOnto cs
    else (utf8Bytes c).flatMap percentByte ++ processURLOnto cs

/-- Function `urlFilter` applied to a `template.URL`: the content type is
`contentTypeURL`, so the value is returned as it is. -/
def urlFilter (s : String) : String := s

/-- Function `urlNormalizer` of `html/template`. -/
def urlNormalizer (s : String) : String := String.mk (processURLOnto s.data)

/-- One entry of `htmlReplacementTable`, the table `attrEscaper` uses for a
value that is not HTML. -/
def htmlReplacement (c : Char) : List Char :=
  if c = Char.ofNat 0 then [Char.ofNat 65533]
  else if c = Char.ofNat 34 then "&#34;".data
  else if c = '&' then "&amp;".data
  else if c = Char.ofNat 39 then "&#39;".data
  else if c = '+' then "&#43;".data
  else if c = '<' then "&lt;".data
  else if c = '>' then "&gt;".data
  else [c]

/-- Function `attrEscaper`: `htmlReplacer(s, htmlReplacementTable, true)`. -/
def attrEscaper (s : String) : String := String.mk (s.data.flatMap htmlReplacement)

/-- The pipeline `html/template` attaches to `{{ . }}` inside `href="..."`:
`_html_template_urlfilter | _html_template_urlnormalizer | _html_template_attrescaper`. -/
def escapeHref (u : String) : String := attrEscaper (urlNormalizer (urlFilter u))

/-! ## The template `tpl` -/

/-- Text of `tpl` before `{{range .}}`. -/
def tplHead : String :=
  "\n\t\t<!DOCTYPE html>\n\t\t<html>\n\t\t\t<head>\n\t\t\t\t<meta charset=\"UTF-8\">\n\t\t\t\t<title>Any title</title>\n\t\t\t</head>\n\t\t\t<body>\n\t\t\t\t<table>\n\t\t\t\t\t<tr>\n\t\t\t\t\t"

/-- Text of the body of the `range` before `{{ . }}`. -/
def tplCellOpen : String :=
  "\n\t\t\t\t\t\t<td>\n\t\t\t\t\t\t\t<a href=\""

/-- Text of the body of the `range` after `{{ . }}`. -/
def tplCellClose : String :=
  "\" target=\"_blank\" rel=\"alternate noopener\">any text</a>\n\t\t\t\t\t\t</td>\n\t\t\t\t\t"

/-- Text of `tpl` after `{{end}}`. -/
def tplTail : String :=
  "\n\t\t\t\t\t</tr>\n\t\t\t\t</table>\n\t\t\t</body>\n\t\t</html>"

/-- The writes `t.Execute(f, files)` issues, in order: each text node and each
value of `{{ . }}` is one `Write` on the file. -/
def executeWrites (files : List String) : List String :=
  tplHead :: (files.flatMap (fun u => [tplCellOpen, escapeHref u, tplCellClose]) ++ [tplTail])

/-- The document a complete `t.Execute(f, files)` produces. -/
def render (files : List String) : String :=
  String.join (executeWrites files)

/-- Error of a write that does not fit on the disk. -/
def errNoSpace : Error := "write index.html: no space left on device"

/-- The writes reach the file one after the other; the first one that does not
fit is cut at the space left and ends the execution with an error. Result: the
file content, the space left, the error if any. The document is ASCII, one byte
per character. -/
def writeAll : Option Nat → String → List String → String × Option Nat × Option Error
  | free, content, [] => (content, free, none)
  | none, content, c :: cs => writeAll none (content ++ c) cs
  | some n, content, c :: cs =>
    if c.length ≤ n then writeAll (some (n - c.length)) (content ++ c) cs
    else (content ++ String.mk (c.data.take n), some 0, some errNoSpace)

/-! ## `generateIndexMock` -/

/-- Lines 101-106: one `template.URL` per entry of the listing. -/
def fileURLs (spreadsheetsPath : String) (filesInfo : List FileInfo) : List String :=
  filesInfo.map (fun file => "file://" ++ spreadsheetsPath ++ "/" ++ file.Name)

/-- Error of `template.New("webpage").Parse(tpl)`: the constant `tpl` is well formed, so
the parse error is `nil`. -/
def parseErr : Option Error := none

/-- Function `generateIndexMock(spreadsheetsPath)`: the file system after the call and
the pair `(path, err)` it returns. -/
def generateIndexMock (w : World) (spreadsheetsPath : String) :
    World × String × Option Error :=
  match w.readDir spreadsheetsPath with
  | .error err => (w, "", some err)
  | .ok filesInfo =>
    let files := fileURLs spreadsheetsPath filesInfo
    match parseErr with
    | some err => (w, "", some err)
    | none =>
      match w.createErr with
      | some err => (w, "", some err)
      | none =>
        let r := writeAll w.diskFree "" (executeWrites files)
        let w1 : World := { w with indexHtml := some r.1, diskFree := r.2.1 }
        match r.2.2 with
        | some err => (w1, "", some err)
        | none =>
          match w.absIndex with
          | .error err => (w1, "", some err)
          | .ok indexPath => (w1, indexPath, none)

/-! ## Reading the links back from a document -/

/-- The text that opens a link address. -/
def hrefMarker : List Char := "<a href=\"".data

/-- State of the reader: looking for `hrefMarker`, of which `matched`
characters have just been read, or inside an address. -/
inductive Scan where
  | seek (matched : Nat) : Scan
  | attr (acc : List Char) : Scan
deriving DecidableEq

/-- One character of the document. An address ends at the closing quote. -/
def scanStep : Scan → Char → Scan × Option String
  | .seek k, c =>
    if hrefMarker.get? k = some c then
      (if k + 1 = hrefMarker.length then .attr [] else .seek (k + 1), none)
    else if c = '<' then (.seek 1, none) else (.seek 0, none)
  | .attr acc, c =>
    if c = Char.ofNat 34 then (.seek 0, some (String.mk acc.reverse))
    else (.attr (c :: acc), none)

/-- The addresses read from a text, and the state at its end. -/
def scanFrom : Scan → List Char → List String × Scan
  | s, [] => ([], s)
  | s, c :: cs =>
    let r := scanFrom (scanStep s c).1 cs
    ((scanStep s c).2.toList ++ r.1, r.2)

/-- The link addresses of a document: the text of each `href` attribute of an
`<a` element, in the order of the document. -/
def linkAddresses (doc : String) : List String :=
  (scanFrom (.seek 0) doc.data).1

/-! ## `main` -/

/-- The `config` record filled from the environment. -/
structure config where
  PCloudUsername : String
  PCloudPassword : String
  ParserURL : String
  Month : Int
  Year : Int
  SpreadsheetsPath : String
  MonthURL : String
  DBUrl : String
  DBName : String
  SendgridAPIKey : String
  SystemAdminsMail : String

/-- Constant `emailFrom`. -/
def emailFrom : String := "no-reply@dadosjusbr.com"

/-- Constant `subject`. -/
def subject : String := "remuneracao-magistrados error"

/-- The collaborator packages, each call given by its outcome: `none` is a
`nil` error. -/
structure Env where
  /-- Call `envconfig.Process("remuneracao-magistrados", &conf)`. -/
  envconfigProcess : Except Error config
  /-- Call `store.NewPCloudClient(username, password)`. -/
  NewPCloudClient : String → String → Option Error
  /-- Call `email.NewClient(apiKey)`. -/
  emailNewClient : String → Option Error
  /-- Call `db.NewClient(url, name)`. -/
  dbNewClient : String → String → Option Error
  /-- Call `processor.Process(indexPath, month, year, ...)`. -/
  Process : String → Int → Int → Option Error
  /-- Call `emailClient.SendFailMail(emailFrom, emailTo, month, year, err)`. -/
  SendFailMail : String → String → Int → Int → Error → Option Error
  /-- Call `emailClient.SendSuccessMail(emailFrom, emailTo, month, year)`. -/
  SendSuccessMail : String → String → Int → Int → Option Error

/-- A call `main` makes, with its arguments and its outcome. -/
inductive Call where
  | envconfigProcess (err : Option Error) : Call
  | NewPCloudClient (username password : String) (err : Option Error) : Call
  | emailNewClient (apiKey : String) (err : Option Error) : Call
  | NewServiceClient (url : String) : Call
  | dbNewClient (url name : String) (err : Option Error) : Call
  | generateIndexMock (spreadsheetsPath path : String) (err : Option Error) : Call
  | Print (text : String) : Call
  | Process (indexPath : String) (month year : Int) (err : Option Error) : Call
  | SendFailMail (sender recipient : String) (month year : Int) (cause : Error)
      (err : Option Error) : Call
  | SendSuccessMail (sender recipient : String) (month year : Int) (err : Option Error) : Call
  | logFatal (message : String) : Call
  | osRemove (path : String) : Call
  | CloseConnection : Call
deriving DecidableEq

/-- A finished run: the calls in the order they were made, the exit code of the
process, the file system it leaves. -/
structure Run where
  calls : List Call
  exitCode : Nat
  world : World

/-- Call `os.Remove(p)`: the file `index.html` of the working directory goes when `p`
is its absolute path. -/
def osRemove (w : World) (p : String) : World :=
  match w.absIndex with
  | .ok q => if q = p then { w with indexHtml := none } else w
  | .error _ => w

/-- Call `log.Fatal(message)`: the message is logged and `os.Exit(1)` ends the
process at once; deferred calls are not run. -/
def logFatal (calls : List Call) (message : String) (w : World) : Run :=
  { calls := calls ++ [.logFatal message], exitCode := 1, world := w }

/-- Return from `main`: the deferred calls run, last registered first, and the
process exits with code 0. `generated` is the path whose removal was deferred,
if any; closing the database connection was deferred before it. -/
def returnFromMain (calls : List Call) (generated : Option String) (w : World) : Run :=
  match generated with
  | some p =>
    { calls := calls ++ [.osRemove p, .CloseConnection], exitCode := 0,
      world := osRemove w p }
  | none => { calls := calls ++ [.CloseConnection], exitCode := 0, world := w }

/-- Lines 76-91 of `main`: processing and the notification. -/
def processAndNotify (env : Env) (conf : config) (calls : List Call)
    (generated : Option String) (indexPath : String) (w : World) : Run :=
  let emailTo := conf.SystemAdminsMail
  let c1 := calls ++ [.Print ("Processing spreadshets from: " ++ indexPath ++ "\n")]
  match env.Process indexPath conf.Month conf.Year with
  | some err =>
    let r := env.SendFailMail emailFrom emailTo conf.Month conf.Year err
    let c2 := c1 ++ [.Process indexPath conf.Month conf.Year (some err),
      .SendFailMail emailFrom emailTo conf.Month conf.Year err r]
    match r with
    | some err2 => logFatal (c2 ++ [.Print ("ERROR SENDING EMAIL: " ++ err2 ++ "\n")]) err2 w
    | none =>
      returnFromMain
        (c2 ++ [.Print ("an email with the errors was sent to: " ++ emailTo ++ "\n")])
        generated w
  | none =>
    let r := env.SendSuccessMail emailFrom emailTo conf.Month conf.Year
    let c2 := c1 ++ [.Process indexPath conf.Month conf.Year none,
      .Print "Month successfuly published.\n",
      .Print ("an email with the results was sent to: " ++ emailTo ++ "\n"),
      .SendSuccessMail emailFrom emailTo conf.Month conf.Year r]
    match r with
    | some err2 => logFatal (c2 ++ [.Print ("ERROR SENDING EMAIL: " ++ err2 ++ "\n")]) err2 w
    | none => returnFromMain c2 generated w

/-- Lines 64-75 of `main`, then the rest: the index locator is resolved. -/
def resolveIndex (env : Env) (conf : config) (calls : List Call) (w : World) : Run :=
  if conf.MonthURL ≠ "" then
    processAndNotify env conf calls none conf.MonthURL w
  else
    let g := generateIndexMock w conf.SpreadsheetsPath
    let c1 := calls ++ [.generateIndexMock conf.SpreadsheetsPath g.2.1 g.2.2]
    match g.2.2 with
    | some err => logFatal c1 err g.1
    | none => processAndNotify env conf c1 (some g.2.1) ("file://" ++ g.2.1) g.1

/-- The function `main`, run with the collaborators `env` on the file system `w`. -/
def main (env : Env) (w : World) : Run :=
  match env.envconfigProcess with
  | .error err => logFatal [.envconfigProcess (some err)] err w
  | .ok conf =>
    let c1 : List Call := [.envconfigProcess none]
    let r2 := env.NewPCloudClient conf.PCloudUsername conf.PCloudPassword
    let c2 := c1 ++ [.NewPCloudClient conf.PCloudUsername conf.PCloudPassword r2]
    match r2 with
    | some err => logFatal c2 ("ERROR: " ++ err) w
    | none =>
      let r3 := env.emailNewClient conf.SendgridAPIKey
      let c3 := c2 ++ [.emailNewClient conf.SendgridAPIKey r3]
      match r3 with
      | some err => logFatal c3 ("ERROR: " ++ err) w
      | none =>
        let r4 := env.dbNewClient conf.DBUrl conf.DBName
        let c4 := c3 ++ [.NewServiceClient conf.ParserURL,
          .dbNewClient conf.DBUrl conf.DBName r4]
        match r4 with
        | some err => logFatal c4 err w
        | none => resolveIndex env conf c4 w

/-! ## Locators the escaping leaves unchanged -/

/-- Characters that both the normaliser and the attribute escaper copy
unchanged wherever they stand: ASCII letters and digits and
`- . _ ~ ! # $ * , / : ; = ? @ [ ]`. -/
def hrefPlain (c : Char) : Bool :=
  urlKept c && c != '&' && c != '+'

/-- Locators written to the document exactly as they are: every character is
plain, or is a `%` in front of two hexadecimal digits. -/
def hrefFixed : List Char → Bool
  | [] => true
  | c :: cs => (hrefPlain c || (c == '%' && hexPair cs)) && hrefFixed cs

/-- Text the normaliser copies unchanged. -/
def normFixed : List Char → Bool
  | [] => true
  | c :: cs => (urlKept c || (c == '%' && hexPair cs)) && normFixed cs

mutual
/-- Paths, relative to the directory holding the entry, of every entry (file
or directory) nested inside it, at any depth. -/
def FileInfo.inside : FileInfo → List String
  | .file _ => []
  | .dir name entries => (pathsOf entries).map (fun r => name ++ "/" ++ r)
/-- Relative paths of all entries of a directory with the given direct entries,
at any depth. -/
def pathsOf : List FileInfo → List String
  | [] => []
  | e :: es => (e.Name :: e.inside) ++ pathsOf es
end

/-! ## Sample inputs -/

/-- Directory `/data` holding `a.csv` and `b.csv`; the working directory is
`/work`, writable, and has no `index.html`. -/
def dataWorld : World where
  readDir := fun p =>
    if p = "/data" then .ok [.file "a.csv", .file "b.csv"]
    else .error ("open " ++ p ++ ": no such file or directory")
  createErr := none
  diskFree := none
  absIndex := .ok "/work/index.html"
  indexHtml := none

/-- As `dataWorld`, with a working directory in which no file can be created. -/
def readOnlyWorld : World :=
  { dataWorld with createErr := some "open index.html: permission denied" }

/-- As `dataWorld`, with room for ten more bytes on the disk. -/
def fullDiskWorld : World :=
  { dataWorld with diskFree := some 10 }

/-- Directory `/my data` holding `a.csv`. -/
def spacedWorld : World :=
  { dataWorld with
    readDir := fun p =>
      if p = "/my data" then Except.ok [FileInfo.file "a.csv"]
      else Except.error ("open " ++ p ++ ": no such file or directory") }

/-- Directory `/data` holding `50%.csv`, `a b.csv` and `q#1?.csv`, in the order
of their names. -/
def oddNamesWorld : World :=
  { dataWorld with
    readDir := fun p =>
      if p = "/data" then
        Except.ok [FileInfo.file "50%.csv", FileInfo.file "a b.csv", FileInfo.file "q#1?.csv"]
      else Except.error ("open " ++ p ++ ": no such file or directory") }

/-! ## Reading a run -/

/-- The call is a notification to the administrators. -/
def Call.isNotification : Call → Bool
  | .SendFailMail _ _ _ _ _ _ => true
  | .SendSuccessMail _ _ _ _ _ => true
  | _ => false

/-- The call is one of those whose failure is fatal, and it failed: loading
the configuration, constructing a collaborator client, generating the index,
sending the final notification. -/
def Call.failed : Call → Bool
  | .envconfigProcess (some _) => true
  | .NewPCloudClient _ _ (some _) => true
  | .emailNewClient _ (some _) => true
  | .dbNewClient _ _ (some _) => true
  | .generateIndexMock _ _ (some _) => true
  | .SendFailMail _ _ _ _ _ (some _) => true
  | .SendSuccessMail _ _ _ _ (some _) => true
  | _ => false

/-- A configuration asking for the local directory `/data`, May 2018. -/
def sampleConf : config where
  PCloudUsername := "user"
  PCloudPassword := "secret"
  ParserURL := "http://parser.local"
  Month := 5
  Year := 2018
  SpreadsheetsPath := "/data"
  MonthURL := ""
  DBUrl := "mongodb://localhost"
  DBName := "db"
  SendgridAPIKey := "key"
  SystemAdminsMail := "admins@dadosjusbr.com"

/-- Collaborators that all succeed. -/
def okEnv : Env where
  envconfigProcess := .ok sampleConf
  NewPCloudClient := fun _ _ => none
  emailNewClient := fun _ => none
  dbNewClient := fun _ _ => none
  Process := fun _ _ _ => none
  SendFailMail := fun _ _ _ _ _ => none
  SendSuccessMail := fun _ _ _ _ => none

/-- Processing fails with `parse error`; the failure mail is sent. -/
def processFailsEnv : Env :=
  { okEnv with Process := fun _ _ _ => some "parse error" }

/-- Processing succeeds; the success mail cannot be sent. -/
def mailDownEnv : Env :=
  { okEnv with SendSuccessMail := fun _ _ _ _ => some "sendgrid: unauthorized" }

/-- The configured directory `/nowhere` does not exist. -/
def missingDirEnv : Env :=
  { okEnv with envconfigProcess := .ok { sampleConf with SpreadsheetsPath := "/nowhere" } }

set_option maxRecDepth 100000

/-! ## Lemmas: writing the document -/

theorem writeAll_none (content : String) (cs : List String) :
    writeAll none content cs = (content ++ String.join cs, none, none) := by
  induction cs generalizing content with
  | nil => simp [writeAll, String.join]
  | cons c cs ih =>
    rw [writeAll, ih]
    simp only [Prod.mk.injEq, and_true]
    apply String.ext
    simp

theorem writeAll_written (free : Option Nat) (content : String) (cs : List String) :
    ∃ t, content ++ String.join cs = (writeAll free content cs).1 ++ t := by
  induction cs generalizing content free with
  | nil => exact ⟨"", by simp [writeAll, String.join]⟩
  | cons c cs ih =>
    cases free with
    | none => exact ⟨"", by rw [writeAll_none]; apply String.ext; simp⟩
    | some n =>
      rw [writeAll]
      split
      · obtain ⟨t, ht⟩ := ih (some (n - c.length)) (content ++ c)
        refine ⟨t, ?_⟩
        rw [← ht]
        apply String.ext
        simp
      · refine ⟨String.mk (c.data.drop n) ++ String.join cs, ?_⟩
        apply String.ext
        simp only [String.data_append, String.data_join, List.map_cons, List.flatten_cons,
          List.append_assoc]
        rw [← List.append_assoc (List.take n c.data), List.take_append_drop]

/-! ## Lemmas: reading the links back -/

theorem scanFrom_append (s : Scan) (a b : List Char) :
    scanFrom s (a ++ b) =
      ((scanFrom s a).1 ++ (scanFrom (scanFrom s a).2 b).1, (scanFrom (scanFrom s a).2 b).2) := by
  induction a generalizing s with
  | nil => simp [scanFrom]
  | cons c cs ih => simp [scanFrom, ih]

theorem scanFrom_attr (acc u : List Char) (h : Char.ofNat 34 ∉ u) :
    scanFrom (.attr acc) u = ([], .attr (u.reverse ++ acc)) := by
  induction u generalizing acc with
  | nil => simp [scanFrom]
  | cons c cs ih =>
    have hc : c ≠ Char.ofNat 34 := fun e => h (by simp [e])
    have hcs : Char.ofNat 34 ∉ cs := fun e => h (by simp [e])
    simp [scanFrom, scanStep, hc, ih _ hcs]

theorem scanFrom_tplHead : scanFrom (.seek 0) tplHead.data = ([], .seek 0) := by
  decide

theorem scanFrom_tplCellOpen : scanFrom (.seek 0) tplCellOpen.data = ([], .attr []) := by
  decide

theorem scanFrom_tplCellClose (acc : List Char) :
    scanFrom (.attr acc) tplCellClose.data = ([String.mk acc.reverse], .seek 0) := by
  rfl

theorem scanFrom_tplTail : scanFrom (.seek 0) tplTail.data = ([], .seek 0) := by
  decide

theorem htmlReplacement_no_quote (c : Char) : Char.ofNat 34 ∉ htmlReplacement c := by
  unfold htmlReplacement
  split_ifs with h0 h1 h2 h3 h4 h5 h6
  · decide
  · decide
  · decide
  · decide
  · decide
  · decide
  · decide
  · simpa using Ne.symm h1

theorem attrEscaper_no_quote (s : String) : Char.ofNat 34 ∉ (attrEscaper s).data := by
  simp only [attrEscaper, List.mem_flatMap, not_exists, not_and]
  intro c _
  exact htmlReplacement_no_quote c

theorem scanFrom_cell (u : String) (rest : List Char) :
    scanFrom (.seek 0) (tplCellOpen.data ++ ((escapeHref u).data ++ (tplCellClose.data ++ rest))) =
      (escapeHref u :: (scanFrom (.seek 0) rest).1, (scanFrom (.seek 0) rest).2) := by
  rw [scanFrom_append, scanFrom_tplCellOpen]
  simp only [List.nil_append]
  have hq : Char.ofNat 34 ∉ (escapeHref u).data := attrEscaper_no_quote _
  rw [scanFrom_append, scanFrom_attr _ _ hq]
  simp only [List.nil_append, List.append_nil]
  rw [scanFrom_append, scanFrom_tplCellClose]
  simp

theorem scanFrom_cells (files : List String) (rest : List Char) :
    scanFrom (.seek 0)
        (((files.flatMap (fun u => [tplCellOpen, escapeHref u, tplCellClose])).map
          String.data).flatten ++ rest) =
      (files.map escapeHref ++ (scanFrom (.seek 0) rest).1, (scanFrom (.seek 0) rest).2) := by
  induction files with
  | nil => simp
  | cons u us ih =>
    simp only [List.flatMap_cons, List.map_append, List.map_cons, List.map_nil,
      List.flatten_append, List.flatten_cons, List.flatten_nil, List.append_nil,
      List.append_assoc, List.cons_append]
    rw [scanFrom_cell, List.nil_append, ih]

/-- The links read back from a complete document are the escaped locators, one
per locator, in order. -/
theorem linkAddresses_render (files : List String) :
    linkAddresses (render files) = files.map escapeHref := by
  simp only [linkAddresses, render, executeWrites, String.data_join, List.map_cons,
    List.flatten_cons, List.map_append, List.flatten_append, List.map_nil, List.flatten_nil,
    List.append_nil]
  rw [scanFrom_append, scanFrom_tplHead]
  simp only [List.nil_append]
  rw [scanFrom_cells, scanFrom_tplTail]
  simp

theorem percentByte_length (b : Nat) : (percentByte b).length = 3 := rfl

theorem utf8Bytes_ne_nil (c : Char) : utf8Bytes c ≠ [] := by
  unfold utf8Bytes
  simp only
  split_ifs <;> simp

theorem flatMap_percentByte_length (l : List Nat) (h : l ≠ []) :
    3 ≤ (l.flatMap percentByte).length := by
  cases l with
  | nil => exact absurd rfl h
  | cons b bs => simp [percentByte_length]

/-- The normaliser never shortens, and keeps the length only of a text it
copies unchanged. -/
theorem processURLOnto_length (cs : List Char) :
    cs.length ≤ (processURLOnto cs).length ∧
      ((processURLOnto cs).length = cs.length → normFixed cs = true) := by
  induction cs with
  | nil => simp [processURLOnto, normFixed]
  | cons c cs ih =>
    obtain ⟨ih1, ih2⟩ := ih
    simp only [processURLOnto, normFixed]
    split_ifs with hk hp
    · refine ⟨by simpa using ih1, ?_⟩
      intro hlen
      have hl : (processURLOnto cs).length = cs.length := by simpa using hlen
      simp [hk, ih2 hl]
    · refine ⟨by simpa using ih1, ?_⟩
      intro hlen
      have hl : (processURLOnto cs).length = cs.length := by simpa using hlen
      simp only [Bool.and_eq_true, decide_eq_true_eq] at hp
      simp [hp.1, hp.2, ih2 hl]
    · have h3 := flatMap_percentByte_length (utf8Bytes c) (utf8Bytes_ne_nil c)
      refine ⟨by simp only [List.length_append, List.length_cons] at ih1 ⊢; omega, ?_⟩
      intro hlen
      simp only [List.length_append, List.length_cons] at ih1 hlen
      omega

theorem processURLOnto_fixed (cs : List Char) (h : normFixed cs = true) :
    processURLOnto cs = cs := by
  induction cs with
  | nil => rfl
  | cons c cs ih =>
    simp only [normFixed, Bool.and_eq_true, Bool.or_eq_true, beq_iff_eq] at h
    simp only [processURLOnto]
    rcases h with ⟨h1 | h1, h2⟩
    · simp [h1, ih h2]
    · simp [h1.1, h1.2, ih h2]

theorem htmlReplacement_length (c : Char) :
    1 ≤ (htmlReplacement c).length ∧
      ((htmlReplacement c).length = 1 → c ≠ '&' ∧ c ≠ '+') := by
  unfold htmlReplacement
  split_ifs with h0 h1 h2 h3 h4 h5 h6
  · subst h0; exact ⟨by decide, fun _ => by decide⟩
  · exact ⟨by decide, fun h => absurd h (by decide)⟩
  · exact ⟨by decide, fun h => absurd h (by decide)⟩
  · exact ⟨by decide, fun h => absurd h (by decide)⟩
  · exact ⟨by decide, fun h => absurd h (by decide)⟩
  · exact ⟨by decide, fun h => absurd h (by decide)⟩
  · exact ⟨by decide, fun h => absurd h (by decide)⟩
  · exact ⟨by simp, fun _ => ⟨h2, h4⟩⟩

theorem flatMap_htmlReplacement_length (cs : List Char) :
    cs.length ≤ (cs.flatMap htmlReplacement).length ∧
      ((cs.flatMap htmlReplacement).length = cs.length → ∀ c ∈ cs, c ≠ '&' ∧ c ≠ '+') := by
  induction cs with
  | nil => simp
  | cons c cs ih =>
    obtain ⟨ih1, ih2⟩ := ih
    obtain ⟨h1, h2⟩ := htmlReplacement_length c
    simp only [List.flatMap_cons, List.length_append, List.length_cons, List.mem_cons,
      forall_eq_or_imp]
    refine ⟨by omega, fun hlen => ⟨h2 (by omega), ih2 (by omega)⟩⟩

theorem htmlReplacement_plain (c : Char) (h : hrefPlain c = true) :
    htmlReplacement c = [c] := by
  simp only [hrefPlain, Bool.and_eq_true, bne_iff_ne, ne_eq] at h
  obtain ⟨⟨hk, ha⟩, hp⟩ := h
  unfold htmlReplacement
  split_ifs with h0 h1 h2 h3 h4
  · subst h0; exact absurd hk (by decide)
  · subst h1; exact absurd hk (by decide)
  · subst h2; exact absurd hk (by decide)
  · subst h3; exact absurd hk (by decide)
  · subst h4; exact absurd hk (by decide)
  · rfl

theorem hrefFixed_iff (cs : List Char) :
    hrefFixed cs = true ↔ normFixed cs = true ∧ ∀ c ∈ cs, c ≠ '&' ∧ c ≠ '+' := by
  induction cs with
  | nil => simp [hrefFixed, normFixed]
  | cons c cs ih =>
    simp only [hrefFixed, normFixed, Bool.and_eq_true, Bool.or_eq_true, ih, List.mem_cons,
      forall_eq_or_imp, hrefPlain, bne_iff_ne, ne_eq, beq_iff_eq]
    constructor
    · rintro ⟨h | h, h2, h3⟩
      · exact ⟨⟨Or.inl h.1.1, h2⟩, ⟨h.1.2, h.2⟩, h3⟩
      · refine ⟨⟨Or.inr h, h2⟩, ⟨?_, ?_⟩, h3⟩
        · rw [h.1]; decide
        · rw [h.1]; decide
    · rintro ⟨⟨h | h, h2⟩, ⟨h3, h4⟩, h5⟩
      · exact ⟨Or.inl ⟨⟨h, h3⟩, h4⟩, h2, h5⟩
      · exact ⟨Or.inr h, h2, h5⟩

theorem flatMap_htmlReplacement_fixed (cs : List Char) (h : hrefFixed cs = true) :
    cs.flatMap htmlReplacement = cs := by
  induction cs with
  | nil => rfl
  | cons c cs ih =>
    simp only [hrefFixed, Bool.and_eq_true, Bool.or_eq_true, beq_iff_eq] at h
    obtain ⟨h1, h2⟩ := h
    have hc : htmlReplacement c = [c] := by
      rcases h1 with h1 | h1
      · exact htmlReplacement_plain c h1
      · rw [h1.1]; rfl
    simp [hc, ih h2]

/-- The escaping of an `href` writes a locator exactly as it is if and only if
the locator is `hrefFixed`. -/
theorem escapeHref_eq_self_iff (u : String) :
    escapeHref u = u ↔ hrefFixed u.data = true := by
  constructor
  · intro h
    have hd : (processURLOnto u.data).flatMap htmlReplacement = u.data := by
      have := congrArg String.data h
      simpa [escapeHref, attrEscaper, urlNormalizer, urlFilter] using this
    obtain ⟨n1, n2⟩ := processURLOnto_length u.data
    obtain ⟨a1, a2⟩ := flatMap_htmlReplacement_length (processURLOnto u.data)
    have hl := congrArg List.length hd
    have hn : (processURLOnto u.data).length = u.data.length := by omega
    have hfix := n2 hn
    have hpe := processURLOnto_fixed _ hfix
    rw [hpe] at a2 hl
    exact (hrefFixed_iff _).2 ⟨hfix, a2 hl⟩
  · intro h
    have hfix := ((hrefFixed_iff _).1 h).1
    apply String.ext
    simp only [escapeHref, attrEscaper, urlNormalizer, urlFilter]
    rw [processURLOnto_fixed _ hfix, flatMap_htmlReplacement_fixed _ h]

theorem join_length_cons (c : String) (cs : List String) :
    (String.join (c :: cs)).length = c.length + (String.join cs).length := by
  show (String.join (c :: cs)).data.length = c.data.length + (String.join cs).data.length
  rw [String.data_join, String.data_join, List.map_cons, List.flatten_cons, List.length_append]

theorem writeAll_fits (n : Nat) (content : String) (cs : List String)
    (h : (String.join cs).length ≤ n) :
    writeAll (some n) content cs =
      (content ++ String.join cs, some (n - (String.join cs).length), none) := by
  induction cs generalizing content n with
  | nil => simp [writeAll, String.join, String.length]
  | cons c cs ih =>
    rw [join_length_cons] at h
    rw [writeAll, if_pos (by omega), ih _ _ (by omega), join_length_cons]
    simp only [Prod.mk.injEq, and_true]
    refine ⟨?_, by congr 1; omega⟩
    apply String.ext
    simp

theorem writeAll_enough (free : Option Nat) (cs : List String)
    (h : ∀ n, free = some n → (String.join cs).length ≤ n) :
    (writeAll free "" cs).1 = String.join cs ∧ (writeAll free "" cs).2.2 = none := by
  cases free with
  | none => simp [writeAll_none]
  | some n => simp [writeAll_fits n "" cs (h n rfl)]

/-- CLAIM C6. When the directory cannot be listed, `generateIndexMock` returns
the empty path with the error of `ioutil.ReadDir` and leaves the file system as
it was: `index.html` is neither created nor modified. -/
theorem generateIndexMock_readDir_error (w : World) (dir : String) (err : Error)
    (h : w.readDir dir = .error err) :
    generateIndexMock w dir = (w, "", some err) := by
  simp [generateIndexMock, h]

/-- Witness for `generateIndexMock_readDir_error`: the missing directory
`/nowhere`. -/
theorem generateIndexMock_readDir_error_witness :
    dataWorld.readDir "/nowhere" = .error "open /nowhere: no such file or directory" ∧
      generateIndexMock dataWorld "/nowhere" =
        (dataWorld, "", some "open /nowhere: no such file or directory") :=
  ⟨rfl, generateIndexMock_readDir_error dataWorld "/nowhere" _ rfl⟩

theorem generateIndexMock_complete (w : World) (dir p : String) (entries : List FileInfo)
    (hread : w.readDir dir = .ok entries) (hcreate : w.createErr = none)
    (hspace : ∀ n, w.diskFree = some n → (render (fileURLs dir entries)).length ≤ n)
    (habs : w.absIndex = .ok p) :
    (generateIndexMock w dir).2 = (p, none) ∧
      (generateIndexMock w dir).1.indexHtml = some (render (fileURLs dir entries)) := by
  obtain ⟨h1, h2⟩ := writeAll_enough w.diskFree (executeWrites (fileURLs dir entries)) hspace
  simp only [generateIndexMock, hread, parseErr, hcreate, h2, habs, h1, render, and_self]

/-- CLAIM C1 (amended). For every readable directory whose listing has N
entries, if `index.html` can be created and written in full and its absolute
path resolved, `generateIndexMock` succeeds with that path and the document has
exactly N link entries, in listing order, the i-th address being the escaping
for an `href` of `"file://" ++ dir ++ "/" ++ name_i`; the addresses are these
strings themselves when each of them is `hrefFixed`. -/
theorem generateIndexMock_links (w : World) (dir p : String) (entries : List FileInfo)
    (hread : w.readDir dir = .ok entries) (hcreate : w.createErr = none)
    (hspace : ∀ n, w.diskFree = some n → (render (fileURLs dir entries)).length ≤ n)
    (habs : w.absIndex = .ok p) :
    (generateIndexMock w dir).2 = (p, none) ∧
      ∃ doc, (generateIndexMock w dir).1.indexHtml = some doc ∧
        (linkAddresses doc).length = entries.length ∧
        linkAddresses doc =
          entries.map (fun e => escapeHref ("file://" ++ dir ++ "/" ++ e.Name)) ∧
        ((∀ e ∈ entries, hrefFixed ("file://" ++ dir ++ "/" ++ e.Name).data = true) →
          linkAddresses doc = entries.map (fun e => "file://" ++ dir ++ "/" ++ e.Name)) := by
  obtain ⟨h1, h2⟩ := generateIndexMock_complete w dir p entries hread hcreate hspace habs
  refine ⟨h1, _, h2, ?_, ?_, ?_⟩
  · simp [linkAddresses_render, fileURLs]
  · simp [linkAddresses_render, fileURLs]
  · intro hfix
    rw [linkAddresses_render]
    simp only [fileURLs, List.map_map]
    apply List.map_congr_left
    intro e he
    exact (escapeHref_eq_self_iff _).2 (hfix e he)

/-- Witness for `generateIndexMock_links`: `/data` with `a.csv` and `b.csv`. -/
theorem generateIndexMock_links_witness :
    (generateIndexMock dataWorld "/data").2 = ("/work/index.html", none) ∧
      ∃ doc, (generateIndexMock dataWorld "/data").1.indexHtml = some doc ∧
        (linkAddresses doc).length = 2 ∧
        linkAddresses doc = ["file:///data/a.csv", "file:///data/b.csv"] := by
  obtain ⟨h1, doc, h2, h3, _, h5⟩ :=
    generateIndexMock_links dataWorld "/data" "/work/index.html" [.file "a.csv", .file "b.csv"]
      rfl rfl (fun n h => by simp [dataWorld] at h) rfl
  exact ⟨h1, doc, h2, h3, h5 (by decide)⟩

/-- CLAIM C1, refuted as stated. A readable directory does not make the call
succeed: in a working directory where `index.html` cannot be created it returns
the creation error. And the address of a link is not always the plain
concatenation: for `/my data` holding `a.csv` it is `file:///my%20data/a.csv`. -/
theorem generateIndexMock_links_counterexample :
    (readOnlyWorld.readDir "/data" = .ok [.file "a.csv", .file "b.csv"] ∧
      (generateIndexMock readOnlyWorld "/data").2 =
        ("", some "open index.html: permission denied")) ∧
    (spacedWorld.readDir "/my data" = .ok [.file "a.csv"] ∧
      (generateIndexMock spacedWorld "/my data").2 = ("/work/index.html", none) ∧
      (generateIndexMock spacedWorld "/my data").1.indexHtml.map linkAddresses =
        some ["file:///my%20data/a.csv"] ∧
      "file:///my%20data/a.csv" ≠ "file://" ++ "/my data" ++ "/" ++ "a.csv") := by
  refine ⟨⟨rfl, rfl⟩, rfl, rfl, ?_, by decide⟩
  decide

/-- CLAIM C7 (amended). Whenever `generateIndexMock` returns an error the path
it returns is empty. After a directory-read or file-creation error the file
system is as before the call: `index.html` is neither created nor modified.
After any later error (rendering or writing, resolving the absolute path) the
`index.html` the call created stays on disk and holds the part of the document
written so far. -/
theorem generateIndexMock_error_effect (w : World) (dir : String)
    (herr : (generateIndexMock w dir).2.2 ≠ none) :
    (generateIndexMock w dir).2.1 = "" ∧
      (((∃ e, w.readDir dir = .error e) ∨ w.createErr ≠ none) →
        (generateIndexMock w dir).1 = w) ∧
      (∀ entries, w.readDir dir = .ok entries → w.createErr = none →
        ∃ s t, (generateIndexMock w dir).1.indexHtml = some s ∧
          render (fileURLs dir entries) = s ++ t) := by
  refine ⟨?_, ?_, ?_⟩
  · revert herr
    unfold generateIndexMock
    split
    · simp
    · simp only [parseErr]
      split
      · simp
      · split
        · simp
        · split <;> simp
  · rintro (⟨e, he⟩ | hc)
    · simp [generateIndexMock, he]
    · unfold generateIndexMock
      split
      · rfl
      · simp only [parseErr]
        split
        · rfl
        · exact absurd (by assumption) hc
  · intro entries hread hcreate
    obtain ⟨t, ht⟩ := writeAll_written w.diskFree "" (executeWrites (fileURLs dir entries))
    refine ⟨(writeAll w.diskFree "" (executeWrites (fileURLs dir entries))).1, t, ?_, ?_⟩
    · unfold generateIndexMock
      simp only [hread, parseErr, hcreate]
      split
      · rfl
      · split <;> rfl
    · rw [← ht, render]
      apply String.ext
      simp

/-- Witness for `generateIndexMock_error_effect`: the disk fills up while the
document is written. -/
theorem generateIndexMock_error_effect_witness :
    (generateIndexMock fullDiskWorld "/data").2.2 ≠ none ∧
      ((generateIndexMock fullDiskWorld "/data").2.1 = "" ∧
        (((∃ e, fullDiskWorld.readDir "/data" = .error e) ∨ fullDiskWorld.createErr ≠ none) →
          (generateIndexMock fullDiskWorld "/data").1 = fullDiskWorld) ∧
        (∀ entries, fullDiskWorld.readDir "/data" = .ok entries →
          fullDiskWorld.createErr = none →
          ∃ s t, (generateIndexMock fullDiskWorld "/data").1.indexHtml = some s ∧
            render (fileURLs "/data" entries) = s ++ t)) :=
  ⟨by decide, generateIndexMock_error_effect fullDiskWorld "/data" (by decide)⟩

/-- CLAIM C7, refuted as stated. With room for ten bytes on the disk the call
fails while it writes, and the `index.html` it created, absent before, is left
behind holding the first ten bytes of the document. -/
theorem generateIndexMock_error_effect_counterexample :
    fullDiskWorld.indexHtml = none ∧
      (generateIndexMock fullDiskWorld "/data").2 = ("", some errNoSpace) ∧
      (generateIndexMock fullDiskWorld "/data").1.indexHtml = some "\n\t\t<!DOCTY" := by
  refine ⟨rfl, rfl, ?_⟩
  decide

/-- CLAIM C9 (amended). The locator built for an entry is exactly the
concatenation `"file://" ++ dir ++ "/" ++ name`: its construction escapes
nothing. The address in the rendered document is that locator as
`html/template` escapes it for an `href` (URL normaliser, then attribute
escaper). It is the concatenation itself if and only if every character of the
concatenation is an ASCII letter or digit, one of
`- . _ ~ ! # $ * , / : ; = ? @ [ ]`, or a `%` in front of two hexadecimal
digits. -/
theorem linkAddress_of_entry (dir : String) (entries : List FileInfo) :
    fileURLs dir entries = entries.map (fun e => "file://" ++ dir ++ "/" ++ e.Name) ∧
      linkAddresses (render (fileURLs dir entries)) =
        entries.map (fun e => escapeHref ("file://" ++ dir ++ "/" ++ e.Name)) ∧
      ∀ name : String,
        (escapeHref ("file://" ++ dir ++ "/" ++ name) = "file://" ++ dir ++ "/" ++ name ↔
          hrefFixed ("file://" ++ dir ++ "/" ++ name).data = true) := by
  refine ⟨rfl, ?_, fun name => escapeHref_eq_self_iff _⟩
  simp [linkAddresses_render, fileURLs]

/-- CLAIM C9, refuted as stated. Rendering escapes the address: `/data` holds
`50%.csv`, `a b.csv` and `q#1?.csv`, listed in that order, and the addresses in
the document are `file:///data/50%25.csv`, `file:///data/a%20b.csv` and
`file:///data/q#1?.csv`; the first two are not the plain concatenations. -/
theorem linkAddress_of_entry_counterexample :
    oddNamesWorld.readDir "/data" =
        .ok [.file "50%.csv", .file "a b.csv", .file "q#1?.csv"] ∧
      (generateIndexMock oddNamesWorld "/data").2 = ("/work/index.html", none) ∧
      (generateIndexMock oddNamesWorld "/data").1.indexHtml.map linkAddresses =
        some ["file:///data/50%25.csv", "file:///data/a%20b.csv", "file:///data/q#1?.csv"] ∧
      linkAddresses (render (fileURLs "/data"
          [.file "50%.csv", .file "a b.csv", .file "q#1?.csv"])) =
        ["file:///data/50%25.csv", "file:///data/a%20b.csv", "file:///data/q#1?.csv"] ∧
      "file:///data/50%25.csv" ≠ "file://" ++ "/data" ++ "/" ++ "50%.csv" ∧
      "file:///data/a%20b.csv" ≠ "file://" ++ "/data" ++ "/" ++ "a b.csv" := by
  refine ⟨rfl, rfl, ?_, ?_, by decide, by decide⟩
  · decide
  · decide

/-! ## Lemmas: the directory tree -/

theorem mem_filesOf (es : List FileInfo) (r : String) :
    r ∈ filesOf es ↔ ∃ e ∈ es, r ∈ e.files := by
  induction es with
  | nil => simp [filesOf]
  | cons e es ih => simp [filesOf, ih]

theorem slash_mem_files_dir (name : String) (es : List FileInfo) (r : String)
    (h : r ∈ (FileInfo.dir name es).files) : '/' ∈ r.data := by
  simp only [FileInfo.files, List.mem_map] at h
  obtain ⟨r1, _, rfl⟩ := h
  simp

theorem slash_mem_inside (e : FileInfo) (r : String) (h : r ∈ e.inside) : '/' ∈ r.data := by
  cases e with
  | file name => simp [FileInfo.inside] at h
  | dir name es =>
    simp only [FileInfo.inside, List.mem_map] at h
    obtain ⟨r1, _, rfl⟩ := h
    simp

theorem locator_injective (dir a b : String)
    (h : "file://" ++ dir ++ "/" ++ a = "file://" ++ dir ++ "/" ++ b) : a = b := by
  have := congrArg String.data h
  simp only [String.data_append, List.append_assoc] at this
  exact String.ext (List.append_cancel_left (List.append_cancel_left (List.append_cancel_left this)))

theorem locator_mem_fileURLs (dir r : String) (entries : List FileInfo) :
    "file://" ++ dir ++ "/" ++ r ∈ fileURLs dir entries ↔ ∃ e ∈ entries, e.Name = r := by
  simp only [fileURLs, List.mem_map]
  constructor
  · rintro ⟨e, he, h⟩
    exact ⟨e, he, locator_injective dir _ _ h⟩
  · rintro ⟨e, he, rfl⟩
    exact ⟨e, he, rfl⟩

theorem locator_slash_not_mem (dir : String) (entries : List FileInfo)
    (hnames : ∀ e ∈ entries, '/' ∉ e.Name.data) (r : String) (hr : '/' ∈ r.data) :
    "file://" ++ dir ++ "/" ++ r ∉ fileURLs dir entries := by
  intro hmem
  obtain ⟨e, he, rfl⟩ := (locator_mem_fileURLs dir r entries).1 hmem
  exact hnames e he hr

theorem lists_every_file_iff (dir : String) (entries : List FileInfo)
    (hnames : ∀ e ∈ entries, '/' ∉ e.Name.data) :
    (∀ r ∈ filesOf entries, "file://" ++ dir ++ "/" ++ r ∈ fileURLs dir entries) ↔
      ∀ e ∈ entries, e.IsDir = true → e.files = [] := by
  constructor
  · intro hall e he hd
    cases e with
    | file name => simp [FileInfo.IsDir] at hd
    | dir name es =>
      rw [List.eq_nil_iff_forall_not_mem]
      intro r hr
      exact locator_slash_not_mem dir entries hnames r (slash_mem_files_dir name es r hr)
        (hall r ((mem_filesOf entries r).2 ⟨_, he, hr⟩))
  · intro hall r hr
    obtain ⟨e, he, hre⟩ := (mem_filesOf entries r).1 hr
    cases e with
    | file name =>
      simp only [FileInfo.files, List.mem_singleton] at hre
      exact (locator_mem_fileURLs dir r entries).2 ⟨_, he, by rw [hre]; rfl⟩
    | dir name es =>
      rw [hall _ he rfl] at hre
      simp at hre

theorem filesOf_no_dirs (entries : List FileInfo) (h : ∀ e ∈ entries, e.IsDir = false) :
    filesOf entries = entries.map FileInfo.Name := by
  induction entries with
  | nil => simp [filesOf]
  | cons e es ih =>
    have he := h e (by simp)
    cases e with
    | dir name ch => simp [FileInfo.IsDir] at he
    | file name =>
      simp [filesOf, FileInfo.files, FileInfo.Name, ih (fun x hx => h x (by simp [hx]))]

theorem filesOf_length (entries : List FileInfo)
    (h : ∀ e ∈ entries, e.IsDir = true → e.files = []) :
    (filesOf entries).length = (entries.filter (fun e => !e.IsDir)).length := by
  induction entries with
  | nil => simp [filesOf]
  | cons e es ih =>
    have ih1 := ih (fun x hx => h x (by simp [hx]))
    cases e with
    | dir name ch =>
      have := h (FileInfo.dir name ch) (by simp) rfl
      simp [filesOf, this, ih1, FileInfo.IsDir]
    | file name => simp [filesOf, FileInfo.files, ih1, FileInfo.IsDir]

theorem fileURLs_eq_files_iff (dir : String) (entries : List FileInfo)
    (hnames : ∀ e ∈ entries, '/' ∉ e.Name.data) :
    fileURLs dir entries = (filesOf entries).map (fun r => "file://" ++ dir ++ "/" ++ r) ↔
      ∀ e ∈ entries, e.IsDir = false := by
  constructor
  · intro heq
    have hall : ∀ r ∈ filesOf entries, "file://" ++ dir ++ "/" ++ r ∈ fileURLs dir entries := by
      intro r hr
      rw [heq]
      exact List.mem_map_of_mem _ hr
    have hempty := (lists_every_file_iff dir entries hnames).1 hall
    have hlen := congrArg List.length heq
    simp only [fileURLs, List.length_map] at hlen
    rw [filesOf_length entries hempty] at hlen
    have hsub : entries.filter (fun e => !e.IsDir) = entries :=
      List.Sublist.eq_of_length (List.filter_sublist entries) hlen.symm
    intro e he
    have := (List.filter_eq_self.1 hsub) e he
    simpa using this
  · intro h
    rw [filesOf_no_dirs entries h]
    simp [fileURLs]

/-- CLAIM C10 (amended). `generateIndexMock` builds its locators from the direct
entries of the listing only: one locator per direct entry, in order, whatever
the kind of the entry, and no locator for an entry nested inside a
subdirectory. So the document lists every file of the directory, at any depth,
exactly when no subdirectory holds a file, in particular whenever the directory
has no subdirectories; and its locators are exactly those of the files of the
directory exactly when the directory has no subdirectories. Entry names, as a
listing yields them, contain no `/`. -/
theorem fileURLs_direct_entries (dir : String) (entries : List FileInfo)
    (hnames : ∀ e ∈ entries, '/' ∉ e.Name.data) :
    fileURLs dir entries = entries.map (fun e => "file://" ++ dir ++ "/" ++ e.Name) ∧
      (fileURLs dir entries).length = entries.length ∧
      (∀ e ∈ entries, ∀ r ∈ e.inside,
        "file://" ++ dir ++ "/" ++ r ∉ fileURLs dir entries) ∧
      ((∀ r ∈ filesOf entries, "file://" ++ dir ++ "/" ++ r ∈ fileURLs dir entries) ↔
        ∀ e ∈ entries, e.IsDir = true → e.files = []) ∧
      ((∀ e ∈ entries, e.IsDir = false) →
        ∀ r ∈ filesOf entries, "file://" ++ dir ++ "/" ++ r ∈ fileURLs dir entries) ∧
      (fileURLs dir entries = (filesOf entries).map (fun r => "file://" ++ dir ++ "/" ++ r) ↔
        ∀ e ∈ entries, e.IsDir = false) := by
  refine ⟨rfl, by simp [fileURLs], ?_, lists_every_file_iff dir entries hnames, ?_,
    fileURLs_eq_files_iff dir entries hnames⟩
  · intro e _ r hr
    exact locator_slash_not_mem dir entries hnames r (slash_mem_inside e r hr)
  · intro hfiles
    apply (lists_every_file_iff dir entries hnames).2
    intro e he hd
    rw [hfiles e he] at hd
    simp at hd

/-- Witness for `fileURLs_direct_entries`: `/data` holding `a.csv` and the
subdirectory `old`, which holds `x.csv`. -/
theorem fileURLs_direct_entries_witness :
    (∀ e ∈ [FileInfo.file "a.csv", FileInfo.dir "old" [FileInfo.file "x.csv"]],
        '/' ∉ e.Name.data) ∧
      fileURLs "/data" [FileInfo.file "a.csv", FileInfo.dir "old" [FileInfo.file "x.csv"]] =
        ["file:///data/a.csv", "file:///data/old"] ∧
      "file:///data/old/x.csv" ∉
        fileURLs "/data" [FileInfo.file "a.csv", FileInfo.dir "old" [FileInfo.file "x.csv"]] :=
  have hn : ∀ e ∈ [FileInfo.file "a.csv", FileInfo.dir "old" [FileInfo.file "x.csv"]],
      '/' ∉ e.Name.data := by
    simp [FileInfo.Name]
  ⟨hn, (fileURLs_direct_entries "/data" _ hn).1,
    (fileURLs_direct_entries "/data" _ hn).2.2.1 (FileInfo.dir "old" [FileInfo.file "x.csv"])
      (by simp) "old/x.csv" (by simp [FileInfo.inside, pathsOf, FileInfo.Name])⟩

/-- CLAIM C10, refuted as stated. `/data` holds `a.csv` and the empty
subdirectory `old`: every file of the directory has its locator in the list,
although the directory has a subdirectory. -/
theorem fileURLs_direct_entries_counterexample :
    filesOf [FileInfo.file "a.csv", FileInfo.dir "old" []] = ["a.csv"] ∧
      fileURLs "/data" [FileInfo.file "a.csv", FileInfo.dir "old" []] =
        ["file:///data/a.csv", "file:///data/old"] ∧
      ¬ ((∀ r ∈ filesOf [FileInfo.file "a.csv", FileInfo.dir "old" []],
            "file://" ++ "/data" ++ "/" ++ r ∈
              fileURLs "/data" [FileInfo.file "a.csv", FileInfo.dir "old" []]) ↔
          ∀ e ∈ [FileInfo.file "a.csv", FileInfo.dir "old" []], e.IsDir = false) := by
  refine ⟨by simp [filesOf, FileInfo.files], rfl, ?_⟩
  intro h
  have h1 := h.1 (by
    intro r hr
    simp only [filesOf, FileInfo.files, List.map_nil, List.append_nil, List.singleton_append,
      List.mem_singleton] at hr
    subst hr
    simp [fileURLs, FileInfo.Name]) (FileInfo.dir "old" []) (by simp)
  simp [FileInfo.IsDir] at h1

/-- A `processor.Process` call in the record of a run means that the
configuration was loaded, the clients were constructed and the index locator
was resolved, and it is the call `main` makes with that locator. -/
theorem main_reaches_processing (env : Env) (w : World) (indexPath : String)
    (month year : Int) (r : Option Error)
    (hreach : Call.Process indexPath month year r ∈ (main env w).calls) :
    ∃ conf, env.envconfigProcess = .ok conf ∧
      env.NewPCloudClient conf.PCloudUsername conf.PCloudPassword = none ∧
      env.emailNewClient conf.SendgridAPIKey = none ∧
      env.dbNewClient conf.DBUrl conf.DBName = none ∧
      ((conf.MonthURL ≠ "" ∧ indexPath = conf.MonthURL) ∨
        (conf.MonthURL = "" ∧ (generateIndexMock w conf.SpreadsheetsPath).2.2 = none ∧
          indexPath = "file://" ++ (generateIndexMock w conf.SpreadsheetsPath).2.1)) ∧
      month = conf.Month ∧ year = conf.Year ∧ r = env.Process indexPath month year := by
  revert hreach
  unfold main resolveIndex processAndNotify logFatal returnFromMain
  simp only []
  repeat' split
  all_goals simp_all

/-- CLAIM C2. When the configuration is loaded, the clients are constructed and
the index locator is resolved (`MonthURL`, or the generated index), `main` calls
`processor.Process` with that locator and the configured month and year, and
then attempts exactly one notification. If `processor.Process` returns the error
`e` it is `SendFailMail` carrying `e` and the configured month and year; if it
returns no error it is `SendSuccessMail` carrying the configured month and
year. No other notification is attempted, and no other `processor.Process` call
is made. -/
theorem main_one_notification (env : Env) (w : World) (conf : config) (indexPath : String)
    (hconf : env.envconfigProcess = .ok conf)
    (hpcloud : env.NewPCloudClient conf.PCloudUsername conf.PCloudPassword = none)
    (hemail : env.emailNewClient conf.SendgridAPIKey = none)
    (hdb : env.dbNewClient conf.DBUrl conf.DBName = none)
    (hindex : (conf.MonthURL ≠ "" ∧ indexPath = conf.MonthURL) ∨
      (conf.MonthURL = "" ∧ (generateIndexMock w conf.SpreadsheetsPath).2.2 = none ∧
        indexPath = "file://" ++ (generateIndexMock w conf.SpreadsheetsPath).2.1)) :
    Call.Process indexPath conf.Month conf.Year
        (env.Process indexPath conf.Month conf.Year) ∈ (main env w).calls ∧
      (∀ ip m y r, Call.Process ip m y r ∈ (main env w).calls →
        ip = indexPath ∧ m = conf.Month ∧ y = conf.Year ∧
          r = env.Process indexPath conf.Month conf.Year) ∧
      (∀ e, env.Process indexPath conf.Month conf.Year = some e →
        (main env w).calls.filter Call.isNotification =
          [.SendFailMail emailFrom conf.SystemAdminsMail conf.Month conf.Year e
            (env.SendFailMail emailFrom conf.SystemAdminsMail conf.Month conf.Year e)]) ∧
      (env.Process indexPath conf.Month conf.Year = none →
        (main env w).calls.filter Call.isNotification =
          [.SendSuccessMail emailFrom conf.SystemAdminsMail conf.Month conf.Year
            (env.SendSuccessMail emailFrom conf.SystemAdminsMail conf.Month conf.Year)]) := by
  unfold main resolveIndex processAndNotify logFatal returnFromMain
  simp only [hconf, hpcloud, hemail, hdb]
  rcases hindex with ⟨h1, h2⟩ | ⟨h1, h2, h3⟩
  · subst h2
    simp only [h1, ne_eq, not_false_eq_true, if_true]
    repeat' split
    all_goals simp_all [Call.isNotification, List.filter]
  · subst h3
    simp only [h1, ne_eq, not_true_eq_false, if_false, h2]
    repeat' split
    all_goals simp_all [Call.isNotification, List.filter]

/-- Witness for `main_one_notification`: the index is generated from `/data`;
in one run processing fails with `parse error`, in the other it succeeds. -/
theorem main_one_notification_witness :
    ((main processFailsEnv dataWorld).calls.filter Call.isNotification =
        [.SendFailMail "no-reply@dadosjusbr.com" "admins@dadosjusbr.com" 5 2018
          "parse error" none]) ∧
      ((main okEnv dataWorld).calls.filter Call.isNotification =
        [.SendSuccessMail "no-reply@dadosjusbr.com" "admins@dadosjusbr.com" 5 2018 none]) :=
  ⟨(main_one_notification processFailsEnv dataWorld sampleConf "file:///work/index.html"
      rfl rfl rfl rfl (Or.inr ⟨rfl, rfl, rfl⟩)).2.2.1 "parse error" rfl,
    (main_one_notification okEnv dataWorld sampleConf "file:///work/index.html"
      rfl rfl rfl rfl (Or.inr ⟨rfl, rfl, rfl⟩)).2.2.2 rfl⟩

theorem processAndNotify_exitCode (env : Env) (conf : config) (pre : List Call)
    (generated : Option String) (ip : String) (w : World) :
    (processAndNotify env conf pre generated ip w).exitCode ≠ 0 ↔
      ((∃ e, env.Process ip conf.Month conf.Year = some e ∧
          env.SendFailMail emailFrom conf.SystemAdminsMail conf.Month conf.Year e ≠ none) ∨
        (env.Process ip conf.Month conf.Year = none ∧
          env.SendSuccessMail emailFrom conf.SystemAdminsMail conf.Month conf.Year ≠ none)) := by
  unfold processAndNotify logFatal returnFromMain
  simp only []
  repeat' split
  all_goals simp_all

theorem resolveIndex_exitCode (env : Env) (conf : config) (pre : List Call) (w : World) :
    (resolveIndex env conf pre w).exitCode ≠ 0 ↔
      ((conf.MonthURL = "" ∧ (generateIndexMock w conf.SpreadsheetsPath).2.2 ≠ none) ∨
        ∃ ip, ((conf.MonthURL ≠ "" ∧ ip = conf.MonthURL) ∨
            (conf.MonthURL = "" ∧ (generateIndexMock w conf.SpreadsheetsPath).2.2 = none ∧
              ip = "file://" ++ (generateIndexMock w conf.SpreadsheetsPath).2.1)) ∧
          ((∃ e, env.Process ip conf.Month conf.Year = some e ∧
              env.SendFailMail emailFrom conf.SystemAdminsMail conf.Month conf.Year e ≠ none) ∨
            (env.Process ip conf.Month conf.Year = none ∧
              env.SendSuccessMail emailFrom conf.SystemAdminsMail conf.Month conf.Year
                ≠ none))) := by
  unfold resolveIndex
  by_cases hm : conf.MonthURL = ""
  · simp only [hm, ne_eq, not_true_eq_false, if_false, true_and, false_and, false_or]
    cases hg : (generateIndexMock w conf.SpreadsheetsPath).2.2 with
    | some err => simp [logFatal]
    | none =>
      simp only [processAndNotify_exitCode, reduceCtorEq, not_false_eq_true, not_true_eq_false,
        false_or, true_and]
      constructor
      · intro h
        exact ⟨_, rfl, h⟩
      · rintro ⟨ip, rfl, h⟩
        exact h
  · simp only [hm, ne_eq, not_false_eq_true, if_true, false_and, false_or, true_and,
      or_false, processAndNotify_exitCode]
    constructor
    · intro h
      exact ⟨_, rfl, h⟩
    · rintro ⟨ip, rfl, h⟩
      exact h

theorem main_exitCode (env : Env) (w : World) (conf : config)
    (hconf : env.envconfigProcess = .ok conf) :
    (main env w).exitCode ≠ 0 ↔
      env.NewPCloudClient conf.PCloudUsername conf.PCloudPassword ≠ none ∨
      env.emailNewClient conf.SendgridAPIKey ≠ none ∨
      env.dbNewClient conf.DBUrl conf.DBName ≠ none ∨
      (resolveIndex env conf
        [.envconfigProcess none, .NewPCloudClient conf.PCloudUsername conf.PCloudPassword none,
          .emailNewClient conf.SendgridAPIKey none, .NewServiceClient conf.ParserURL,
          .dbNewClient conf.DBUrl conf.DBName none] w).exitCode ≠ 0 := by
  unfold main
  simp only [hconf]
  cases h1 : env.NewPCloudClient conf.PCloudUsername conf.PCloudPassword with
  | some e => simp [logFatal]
  | none =>
    cases h2 : env.emailNewClient conf.SendgridAPIKey with
    | some e => simp [logFatal]
    | none =>
      cases h3 : env.dbNewClient conf.DBUrl conf.DBName with
      | some e => simp [logFatal]
      | none => simp

theorem main_record (env : Env) (w : World) :
    ((main env w).exitCode ≠ 0 ↔ ∃ c ∈ (main env w).calls, c.failed = true) ∧
    ((main env w).exitCode ≠ 0 ↔
      (main env w).exitCode = 1 ∧ ∃ m, (main env w).calls.getLast? = some (.logFatal m)) ∧
    ((main env w).exitCode = 0 → ∀ m, Call.logFatal m ∉ (main env w).calls) ∧
    (∀ ip m y e s t cause,
      Call.Process ip m y (some e) ∈ (main env w).calls →
      Call.SendFailMail s t m y cause none ∈ (main env w).calls →
      (main env w).exitCode = 0) := by
  unfold main resolveIndex processAndNotify logFatal returnFromMain
  simp only []
  repeat' split
  all_goals simp_all [Call.failed]

theorem main_config_error (env : Env) (w : World) (err : Error)
    (h : env.envconfigProcess = .error err) :
    (main env w).exitCode = 1 ∧ (main env w).calls.getLast? = some (.logFatal err) := by
  unfold main
  simp [h, logFatal]

theorem main_notified_failure (env : Env) (w : World) (conf : config) (ip : String)
    (e : Error) (hconf : env.envconfigProcess = .ok conf)
    (hpcloud : env.NewPCloudClient conf.PCloudUsername conf.PCloudPassword = none)
    (hemail : env.emailNewClient conf.SendgridAPIKey = none)
    (hdb : env.dbNewClient conf.DBUrl conf.DBName = none)
    (hindex : (conf.MonthURL ≠ "" ∧ ip = conf.MonthURL) ∨
      (conf.MonthURL = "" ∧ (generateIndexMock w conf.SpreadsheetsPath).2.2 = none ∧
        ip = "file://" ++ (generateIndexMock w conf.SpreadsheetsPath).2.1))
    (hproc : env.Process ip conf.Month conf.Year = some e)
    (hsend : env.SendFailMail emailFrom conf.SystemAdminsMail conf.Month conf.Year e = none) :
    (main env w).exitCode = 0 ∧
      Call.SendFailMail emailFrom conf.SystemAdminsMail conf.Month conf.Year e none ∈
        (main env w).calls := by
  unfold main resolveIndex processAndNotify logFatal returnFromMain
  simp only [hconf, hpcloud, hemail, hdb]
  rcases hindex with ⟨h1, h2⟩ | ⟨h1, h2, h3⟩
  · subst h2
    simp only [h1, ne_eq, not_false_eq_true, if_true, hproc, hsend]
    simp
  · subst h3
    simp only [h1, ne_eq, not_true_eq_false, if_false, h2, hproc, hsend]
    simp

/-- CLAIM C5. A run of `main` ends fatally, by `log.Fatal` with exit code 1,
if and only if loading the configuration fails, or constructing a collaborator
client fails, or the index has to be generated and its generation fails, or the
notification sent after processing fails. A configuration error is fatal at
once. Every fatal end has exit code 1 and `log.Fatal` as its last call; every
other run ends with exit code 0 and no `log.Fatal`. In particular, once clients
and index are ready, a run whose processing fails and whose failure notification
is sent ends with exit code 0. -/
theorem main_fatal_iff (env : Env) (w : World) :
    (∀ err, env.envconfigProcess = .error err →
      (main env w).exitCode = 1 ∧ (main env w).calls.getLast? = some (.logFatal err)) ∧
    (∀ conf, env.envconfigProcess = .ok conf →
      ((main env w).exitCode ≠ 0 ↔
        env.NewPCloudClient conf.PCloudUsername conf.PCloudPassword ≠ none ∨
        env.emailNewClient conf.SendgridAPIKey ≠ none ∨
        env.dbNewClient conf.DBUrl conf.DBName ≠ none ∨
        (conf.MonthURL = "" ∧ (generateIndexMock w conf.SpreadsheetsPath).2.2 ≠ none) ∨
        ∃ ip, ((conf.MonthURL ≠ "" ∧ ip = conf.MonthURL) ∨
            (conf.MonthURL = "" ∧ (generateIndexMock w conf.SpreadsheetsPath).2.2 = none ∧
              ip = "file://" ++ (generateIndexMock w conf.SpreadsheetsPath).2.1)) ∧
          ((∃ e, env.Process ip conf.Month conf.Year = some e ∧
              env.SendFailMail emailFrom conf.SystemAdminsMail conf.Month conf.Year e ≠ none) ∨
            (env.Process ip conf.Month conf.Year = none ∧
              env.SendSuccessMail emailFrom conf.SystemAdminsMail conf.Month conf.Year
                ≠ none)))) ∧
    (∀ conf ip e, env.envconfigProcess = .ok conf →
      env.NewPCloudClient conf.PCloudUsername conf.PCloudPassword = none →
      env.emailNewClient conf.SendgridAPIKey = none →
      env.dbNewClient conf.DBUrl conf.DBName = none →
      ((conf.MonthURL ≠ "" ∧ ip = conf.MonthURL) ∨
        (conf.MonthURL = "" ∧ (generateIndexMock w conf.SpreadsheetsPath).2.2 = none ∧
          ip = "file://" ++ (generateIndexMock w conf.SpreadsheetsPath).2.1)) →
      env.Process ip conf.Month conf.Year = some e →
      env.SendFailMail emailFrom conf.SystemAdminsMail conf.Month conf.Year e = none →
      (main env w).exitCode = 0 ∧
        Call.SendFailMail emailFrom conf.SystemAdminsMail conf.Month conf.Year e none ∈
          (main env w).calls) ∧
    ((main env w).exitCode ≠ 0 ↔ ∃ c ∈ (main env w).calls, c.failed = true) ∧
    ((main env w).exitCode ≠ 0 ↔
      (main env w).exitCode = 1 ∧ ∃ m, (main env w).calls.getLast? = some (.logFatal m)) ∧
    ((main env w).exitCode = 0 → ∀ m, Call.logFatal m ∉ (main env w).calls) ∧
    (∀ ip m y e s t cause,
      Call.Process ip m y (some e) ∈ (main env w).calls →
      Call.SendFailMail s t m y cause none ∈ (main env w).calls →
      (main env w).exitCode = 0) := by
  refine ⟨fun err h => main_config_error env w err h, fun conf hconf => ?_,
    fun conf ip e h1 h2 h3 h4 h5 h6 h7 => main_notified_failure env w conf ip e h1 h2 h3 h4 h5 h6 h7,
    main_record env w⟩
  rw [main_exitCode env w conf hconf, resolveIndex_exitCode]

/-- Witness for `main_fatal_iff`: processing fails with `parse error` and the
failure mail is sent; the run ends with exit code 0. -/
theorem main_fatal_iff_witness :
    processFailsEnv.Process "file:///work/index.html" 5 2018 = some "parse error" ∧
      processFailsEnv.SendFailMail "no-reply@dadosjusbr.com" "admins@dadosjusbr.com" 5 2018
        "parse error" = none ∧
      (main processFailsEnv dataWorld).exitCode = 0 ∧
      Call.SendFailMail "no-reply@dadosjusbr.com" "admins@dadosjusbr.com" 5 2018
          "parse error" none ∈ (main processFailsEnv dataWorld).calls :=
  ⟨rfl, rfl, (main_fatal_iff processFailsEnv dataWorld).2.2.1 sampleConf
    "file:///work/index.html" "parse error" rfl rfl rfl rfl (Or.inr ⟨rfl, rfl, rfl⟩) rfl rfl⟩

/-- CLAIM C8. With a non-empty `MonthURL` the locator handed to
`processor.Process` is `MonthURL` itself, `generateIndexMock` is not called, no
file is removed and the file system is left as it was. With an empty `MonthURL`
the locator is `"file://" ++ p` for the path `p` that
`generateIndexMock(SpreadsheetsPath)` returned without error. Once the clients
are constructed, and the index generated when it has to be, `processor.Process`
is called with that locator and the configured month and year. -/
theorem main_index_locator (env : Env) (w : World) (conf : config)
    (hconf : env.envconfigProcess = .ok conf) :
    (conf.MonthURL ≠ "" →
      (∀ ip m y r, Call.Process ip m y r ∈ (main env w).calls → ip = conf.MonthURL) ∧
      (∀ d p r, Call.generateIndexMock d p r ∉ (main env w).calls) ∧
      (∀ p, Call.osRemove p ∉ (main env w).calls) ∧
      (main env w).world = w) ∧
    (conf.MonthURL = "" →
      ∀ ip m y r, Call.Process ip m y r ∈ (main env w).calls →
        Call.generateIndexMock conf.SpreadsheetsPath
            (generateIndexMock w conf.SpreadsheetsPath).2.1 none ∈ (main env w).calls ∧
          (generateIndexMock w conf.SpreadsheetsPath).2.2 = none ∧
          ip = "file://" ++ (generateIndexMock w conf.SpreadsheetsPath).2.1) ∧
    (env.NewPCloudClient conf.PCloudUsername conf.PCloudPassword = none →
      env.emailNewClient conf.SendgridAPIKey = none →
      env.dbNewClient conf.DBUrl conf.DBName = none →
      (conf.MonthURL ≠ "" →
        Call.Process conf.MonthURL conf.Month conf.Year
          (env.Process conf.MonthURL conf.Month conf.Year) ∈ (main env w).calls) ∧
      (conf.MonthURL = "" → (generateIndexMock w conf.SpreadsheetsPath).2.2 = none →
        Call.Process ("file://" ++ (generateIndexMock w conf.SpreadsheetsPath).2.1)
          conf.Month conf.Year
          (env.Process ("file://" ++ (generateIndexMock w conf.SpreadsheetsPath).2.1)
            conf.Month conf.Year) ∈ (main env w).calls)) := by
  unfold main resolveIndex processAndNotify logFatal returnFromMain
  simp only [hconf]
  repeat' split
  all_goals simp_all

/-- Witness for `main_index_locator`: no `MonthURL`, the index is generated from
`/data` and handed over as `file:///work/index.html`. -/
theorem main_index_locator_witness :
    okEnv.envconfigProcess = .ok sampleConf ∧
      Call.Process "file:///work/index.html" 5 2018 none ∈ (main okEnv dataWorld).calls :=
  ⟨rfl, ((main_index_locator okEnv dataWorld sampleConf rfl).2.2 rfl rfl rfl).2 rfl rfl⟩

/-- CLAIM C3, the code at the failing input. The index is generated from
`/data`, processing succeeds and the success mail cannot be sent: `main` ends
in `log.Fatal`, the deferred `os.Remove` never runs and `index.html` is still on
disk. In the run where the mail is sent the file is removed. -/
theorem main_notification_failure_keeps_index :
    (main mailDownEnv dataWorld).calls =
        [.envconfigProcess none, .NewPCloudClient "user" "secret" none,
          .emailNewClient "key" none, .NewServiceClient "http://parser.local",
          .dbNewClient "mongodb://localhost" "db" none,
          .generateIndexMock "/data" "/work/index.html" none,
          .Print "Processing spreadshets from: file:///work/index.html\n",
          .Process "file:///work/index.html" 5 2018 none,
          .Print "Month successfuly published.\n",
          .Print "an email with the results was sent to: admins@dadosjusbr.com\n",
          .SendSuccessMail "no-reply@dadosjusbr.com" "admins@dadosjusbr.com" 5 2018
            (some "sendgrid: unauthorized"),
          .Print "ERROR SENDING EMAIL: sendgrid: unauthorized\n",
          .logFatal "sendgrid: unauthorized"] ∧
      (main mailDownEnv dataWorld).exitCode = 1 ∧
      (main mailDownEnv dataWorld).world.indexHtml =
        some (render ["file:///data/a.csv", "file:///data/b.csv"]) ∧
      (main okEnv dataWorld).world.indexHtml = none := by
  refine ⟨by decide, rfl, by decide, by decide⟩

/-- CLAIM C4, the code at the failing input. The database client is
constructed, then the configured directory `/nowhere` cannot be listed: `main`
ends in `log.Fatal` and the deferred `CloseConnection` never runs. In the run
that returns normally the connection is closed last. -/
theorem main_index_failure_skips_close :
    (main missingDirEnv dataWorld).calls =
        [.envconfigProcess none, .NewPCloudClient "user" "secret" none,
          .emailNewClient "key" none, .NewServiceClient "http://parser.local",
          .dbNewClient "mongodb://localhost" "db" none,
          .generateIndexMock "/nowhere" "" (some "open /nowhere: no such file or directory"),
          .logFatal "open /nowhere: no such file or directory"] ∧
      (main missingDirEnv dataWorld).exitCode = 1 ∧
      Call.CloseConnection ∉ (main missingDirEnv dataWorld).calls ∧
      (main okEnv dataWorld).calls.getLast? = some .CloseConnection := by
  refine ⟨by decide, rfl, by decide, by decide⟩

theorem generateIndexMock_path (w : World) (dir : String)
    (h : (generateIndexMock w dir).2.2 = none) :
    (generateIndexMock w dir).1.absIndex = .ok (generateIndexMock w dir).2.1 := by
  unfold generateIndexMock at h ⊢
  cases hr : w.readDir dir with
  | error e => simp [hr] at h
  | ok filesInfo =>
    simp only [hr, parseErr] at h ⊢
    cases hc : w.createErr with
    | some e => simp [hc] at h
    | none =>
      simp only [hc] at h ⊢
      cases hw : (writeAll w.diskFree "" (executeWrites (fileURLs dir filesInfo))).2.2 with
      | some e => simp [hw] at h
      | none =>
        simp only [hw] at h ⊢
        cases ha : w.absIndex with
        | error e => simp [ha] at h
        | ok p => rfl

/-- Every fatal end of `main` skips the deferred calls; every normal return
closes the database connection last, after removing the index it generated. -/
theorem main_deferred (env : Env) (w : World) :
    ((main env w).exitCode ≠ 0 →
      Call.CloseConnection ∉ (main env w).calls ∧ ∀ p, Call.osRemove p ∉ (main env w).calls) ∧
    ((main env w).exitCode = 0 →
      (main env w).calls.getLast? = some .CloseConnection ∧
      ∀ d p, Call.generateIndexMock d p none ∈ (main env w).calls →
        Call.osRemove p ∈ (main env w).calls ∧ (main env w).world.indexHtml = none) := by
  unfold main resolveIndex processAndNotify logFatal returnFromMain
  simp only []
  repeat' split
  all_goals simp_all [osRemove, generateIndexMock_path]

end Cli
